import Mathlib

/-!
# Window tiler (`windowtiler.js`): tile computation and window filtering

A shallow embedding of the methods of `WindowTiler` (`computeTiles`,
`pushTileIntoTileContext`, `filterWindows`, `compareAreas`,
`windowIsWithinScreen`, `windowIsNonMinimized`, `repositionAndResizeWindow`,
`tileWindows`, `onReceivedWindowsData`), followed by the properties
established for them.

Modelling conventions.
* Pixel coordinates are integers (`Int`); the window count is a natural number.
* `Math.floor(z / 2)` is `z / 2` on `Int`: integer division by a positive
  literal rounds towards minus infinity (`floor_half_bounds` below).
* A JavaScript array is a `List`; `push` appends at the end.
* The global `screen` and the field `this.allWindows` are explicit arguments.
* What a pass does to the outside world (`alert`, `chrome.windows.update`) is
  returned as an ordered list of effects; `console.log` lines are left out.
-/

namespace WindowTiler

/-- A tile object `{left, top, width, height}` as built by
`pushTileIntoTileContext`. -/
structure Tile where
  left : Int
  top : Int
  width : Int
  height : Int
  deriving DecidableEq, Repr

/-- Embedding of `WindowTiler.prototype.pushTileIntoTileContext`: push the
tile onto the context and return the context. -/
def pushTileIntoTileContext (left top width height : Int)
    (tileContext : List Tile) : List Tile :=
  tileContext ++ [{ left := left, top := top, width := width, height := height }]

/-- Embedding of `WindowTiler.prototype.computeTiles`: recursive binary
partition of the zone `(zoneX, zoneY, zoneWidth, zoneHeight)` for `numWindows`
windows, pushing the tiles onto `tileContext`. The `console.log` call at the head of the
function has no bearing on the result and is left out. -/
def computeTiles (tileContext : List Tile) (numWindows : Nat)
    (zoneX zoneY zoneWidth zoneHeight : Int) : List Tile :=
  if numWindows = 0 then
    tileContext
  else if numWindows = 1 then
    pushTileIntoTileContext zoneX zoneY zoneWidth zoneHeight tileContext
  else
    let halfNumWindows := numWindows / 2
    if zoneWidth > zoneHeight then
      let halfWidth := zoneWidth / 2
      let tileContext := computeTiles tileContext halfNumWindows
        zoneX zoneY halfWidth zoneHeight
      computeTiles tileContext (numWindows - halfNumWindows)
        (zoneX + halfWidth + 1) zoneY (zoneWidth - halfWidth) zoneHeight
    else
      let halfHeight := zoneHeight / 2
      let tileContext := computeTiles tileContext halfNumWindows
        zoneX zoneY zoneWidth halfHeight
      computeTiles tileContext (numWindows - halfNumWindows)
        zoneX (zoneY + halfHeight + 1) zoneWidth (zoneHeight - halfHeight)
termination_by numWindows
decreasing_by
  all_goals simp_wf
  all_goals omega

/-- The number a JavaScript boolean becomes as an operand of `&`
(`true` is 1, `false` is 0). -/
def boolToInt32 (b : Bool) : Nat :=
  if b then 1 else 0

/-- The inner loop of `filterWindows`: `shouldAdd &= filters[j](w)` for
`j = 0 .. filters.length - 1`, with the bitwise `&` of JavaScript. -/
def shouldAddAfter {W : Type} (filters : List (W → Bool)) (w : W)
    (shouldAdd : Nat) : Nat :=
  filters.foldl (fun acc f => acc &&& boolToInt32 (f w)) shouldAdd

/-- Embedding of `WindowTiler.prototype.filterWindows`: for each window in
order, and all the filters into `shouldAdd` (initially `true`, held here as
the number 1 it converts to) and push the window when the outcome is truthy
(non-zero). -/
def filterWindows {W : Type} (windowsParam : List W)
    (filters : List (W → Bool)) : List W :=
  windowsParam.foldl
    (fun filtered w =>
      if shouldAddAfter filters w 1 ≠ 0 then filtered ++ [w] else filtered)
    []

/-- Embedding of `WindowTiler.prototype.compareAreas` on objects with
integer `width`, `height`, `left` and `top`. -/
def compareAreas (a b : Tile) : Int :=
  if a.width ≠ b.width then a.width - b.width
  else if a.height ≠ b.height then a.height - b.height
  else if a.left ≠ b.left then a.left - b.left
  else if a.top ≠ b.top then a.top - b.top
  else 0

/-- A `chrome.windows.Window` as far as the tiler reads it. -/
structure Window where
  id : Int
  state : String
  left : Int
  top : Int
  width : Int
  height : Int
  deriving DecidableEq, Repr

/-- The fields of the global `screen` object read by the tiler. -/
structure Screen where
  availLeft : Int
  availTop : Int
  availWidth : Int
  availHeight : Int
  width : Int
  height : Int
  deriving DecidableEq, Repr

/-- Embedding of `WindowTiler.prototype.windowIsWithinScreen`, with the global
`screen` passed explicitly. -/
def windowIsWithinScreen (screen : Screen) (theWindow : Window) : Bool :=
  decide (theWindow.left ≥ screen.availLeft) &&
    decide (theWindow.left ≤ screen.availLeft + screen.width) &&
    decide (theWindow.top ≥ screen.availTop) &&
    decide (theWindow.top ≤ screen.availTop + screen.height)

/-- Embedding of `WindowTiler.prototype.windowIsNonMinimized`. -/
def windowIsNonMinimized (theWindow : Window) : Bool :=
  theWindow.state != "minimized"

/-- What a tiling pass does to the outside world, in order: an `alert` whose
text starts with the given number, or a `chrome.windows.update` call issued by
`repositionAndResizeWindow` (window id, then the `left`, `top`, `width`,
`height` and `state` of the update object). -/
inductive Effect where
  | alert (count : Nat)
  | update (windowId left top width height : Int) (state : String)
  deriving DecidableEq, Repr

/-- Embedding of `WindowTiler.prototype.repositionAndResizeWindow`: the one
`chrome.windows.update` call it makes (its `console.log` line is left out). -/
def repositionAndResizeWindow (windowId left top width height : Int) : Effect :=
  Effect.update windowId left top width height "normal"

/-- The outcome of one tiling pass: the effects issued, and whether the pass
ran to its end (`false` when `filteredWindows[i]` was undefined and reading its
`id` threw). -/
structure PassOutcome where
  effects : List Effect
  completed : Bool
  deriving DecidableEq, Repr

/-- The last loop of `tileWindows`, from index `i` on, over the tiles that
remain: `repositionAndResizeWindow(filteredWindows[i].id, tile.left, ...)`. -/
def resizeLoop (filteredWindows : List Window) :
    List Tile → Nat → List Effect → PassOutcome
  | [], _, effects => { effects := effects, completed := true }
  | tile :: rest, i, effects =>
    match filteredWindows[i]? with
    | none => { effects := effects, completed := false }
    | some w =>
      resizeLoop filteredWindows rest (i + 1)
        (effects ++ [repositionAndResizeWindow w.id tile.left tile.top
          tile.width tile.height])

/-- The first loop of `tileWindows`: collect the windows for which
`windowIsWithinScreen` is false. -/
def windowsThatAreNotWithinScreen (screen : Screen)
    (allWindows : List Window) : List Window :=
  allWindows.foldl
    (fun acc w => if !windowIsWithinScreen screen w then acc ++ [w] else acc)
    []

/-- Embedding of `WindowTiler.prototype.tileWindows`, with `this.allWindows`
and the global `screen` passed explicitly; `firstTime` is `false` when the
argument is absent. -/
def tileWindows (screen : Screen) (allWindows : List Window)
    (firstTime : Bool) : PassOutcome :=
  let tileContext : List Tile := []
  let filters : List (Window → Bool) :=
    [windowIsNonMinimized, windowIsWithinScreen screen]
  let outside := windowsThatAreNotWithinScreen screen allWindows
  let alerts : List Effect :=
    if firstTime && decide (outside.length > 0) then [Effect.alert outside.length]
    else []
  let filteredWindows := filterWindows allWindows filters
  let tileContext := computeTiles tileContext filteredWindows.length
    screen.availLeft screen.availTop screen.availWidth screen.availHeight
  resizeLoop filteredWindows tileContext 0 alerts

/-- Embedding of `WindowTiler.prototype.onReceivedWindowsData` together with
the timer callback it arms: the snapshot is stored, the first pass runs with
`firstTime = true`, and, when that pass returned, the timer later runs
`tileWindows` with no argument on the same snapshot. The screen is read anew
by each pass. The result is the list of the passes that ran. -/
def onReceivedWindowsData (screenFirst screenRetry : Screen)
    (windowsParam : List Window) : List PassOutcome :=
  let allWindows := windowsParam
  let first := tileWindows screenFirst allWindows true
  if first.completed then [first, tileWindows screenRetry allWindows false]
  else [first]

/-- Whether an effect is a resize command (a `chrome.windows.update` call). -/
def Effect.isUpdate : Effect → Bool
  | Effect.update _ _ _ _ _ _ => true
  | Effect.alert _ => false

/-- Whether an effect is the multi-monitor notification. -/
def Effect.isAlert : Effect → Bool
  | Effect.alert _ => true
  | Effect.update _ _ _ _ _ _ => false

/-- The recursion depth of `computeTiles` below a call: 0 when the call
returns without recursing, otherwise one more than the deeper of its two
recursive calls (same branches and arguments as `computeTiles`). -/
def computeTilesDepth (numWindows : Nat)
    (zoneX zoneY zoneWidth zoneHeight : Int) : Nat :=
  if numWindows = 0 then
    0
  else if numWindows = 1 then
    0
  else
    let halfNumWindows := numWindows / 2
    if zoneWidth > zoneHeight then
      let halfWidth := zoneWidth / 2
      max (computeTilesDepth halfNumWindows zoneX zoneY halfWidth zoneHeight)
        (computeTilesDepth (numWindows - halfNumWindows)
          (zoneX + halfWidth + 1) zoneY (zoneWidth - halfWidth) zoneHeight) + 1
    else
      let halfHeight := zoneHeight / 2
      max (computeTilesDepth halfNumWindows zoneX zoneY zoneWidth halfHeight)
        (computeTilesDepth (numWindows - halfNumWindows)
          zoneX (zoneY + halfHeight + 1) zoneWidth (zoneHeight - halfHeight)) + 1
termination_by numWindows
decreasing_by
  all_goals simp_wf
  all_goals omega

/-- The function `computeTiles` run on a call stack of `frames` frames: every
call, the outermost included, takes one frame, and a call for which no frame is
left fails (`none`). Branches and arguments are those of `computeTiles`. -/
def computeTilesWithin : Nat → List Tile → Nat → Int → Int → Int → Int →
    Option (List Tile)
  | 0, _, _, _, _, _, _ => none
  | frames + 1, tileContext, numWindows, zoneX, zoneY, zoneWidth, zoneHeight =>
    if numWindows = 0 then
      some tileContext
    else if numWindows = 1 then
      some (pushTileIntoTileContext zoneX zoneY zoneWidth zoneHeight tileContext)
    else
      let halfNumWindows := numWindows / 2
      if zoneWidth > zoneHeight then
        let halfWidth := zoneWidth / 2
        match computeTilesWithin frames tileContext halfNumWindows
            zoneX zoneY halfWidth zoneHeight with
        | none => none
        | some tileContext =>
          computeTilesWithin frames tileContext (numWindows - halfNumWindows)
            (zoneX + halfWidth + 1) zoneY (zoneWidth - halfWidth) zoneHeight
      else
        let halfHeight := zoneHeight / 2
        match computeTilesWithin frames tileContext halfNumWindows
            zoneX zoneY zoneWidth halfHeight with
        | none => none
        | some tileContext =>
          computeTilesWithin frames tileContext (numWindows - halfNumWindows)
            zoneX (zoneY + halfHeight + 1) zoneWidth (zoneHeight - halfHeight)

/-! ## Unfolding and the accumulator -/

theorem floor_half_bounds (z : Int) : 2 * (z / 2) ≤ z ∧ z < 2 * (z / 2) + 2 := by
  omega

theorem computeTiles_zero (ctx : List Tile) (x y w h : Int) :
    computeTiles ctx 0 x y w h = ctx := by
  rw [computeTiles]; simp

theorem computeTiles_one (ctx : List Tile) (x y w h : Int) :
    computeTiles ctx 1 x y w h = ctx ++ [⟨x, y, w, h⟩] := by
  rw [computeTiles]; simp [pushTileIntoTileContext]

theorem computeTiles_vertical (ctx : List Tile) (n : Nat) (x y w h : Int)
    (hn : 2 ≤ n) (hwh : w > h) :
    computeTiles ctx n x y w h =
      computeTiles (computeTiles ctx (n / 2) x y (w / 2) h) (n - n / 2)
        (x + w / 2 + 1) y (w - w / 2) h := by
  rw [computeTiles]
  have h0 : n ≠ 0 := by omega
  have h1 : n ≠ 1 := by omega
  simp [h0, h1, hwh]

theorem computeTiles_horizontal (ctx : List Tile) (n : Nat) (x y w h : Int)
    (hn : 2 ≤ n) (hwh : ¬ w > h) :
    computeTiles ctx n x y w h =
      computeTiles (computeTiles ctx (n / 2) x y w (h / 2)) (n - n / 2)
        x (y + h / 2 + 1) w (h - h / 2) := by
  rw [computeTiles]
  have h0 : n ≠ 0 := by omega
  have h1 : n ≠ 1 := by omega
  simp [h0, h1, hwh]

/-- The tiles are appended to the incoming context, which is otherwise left
alone. -/
theorem computeTiles_append (n : Nat) :
    ∀ (ctx : List Tile) (x y w h : Int),
      computeTiles ctx n x y w h = ctx ++ computeTiles [] n x y w h := by
  induction n using Nat.strong_induction_on with
  | _ n ih =>
    intro ctx x y w h
    rcases Nat.lt_or_ge n 2 with hlt | hge
    · interval_cases n
      · simp [computeTiles_zero]
      · simp [computeTiles_one]
    · have ha : n / 2 < n := by omega
      have hb : n - n / 2 < n := by omega
      by_cases hwh : w > h
      · rw [computeTiles_vertical ctx n x y w h hge hwh,
          computeTiles_vertical [] n x y w h hge hwh,
          ih _ hb (computeTiles ctx (n / 2) x y (w / 2) h),
          ih _ hb (computeTiles [] (n / 2) x y (w / 2) h),
          ih _ ha ctx, List.append_assoc]
      · rw [computeTiles_horizontal ctx n x y w h hge hwh,
          computeTiles_horizontal [] n x y w h hge hwh,
          ih _ hb (computeTiles ctx (n / 2) x y w (h / 2)),
          ih _ hb (computeTiles [] (n / 2) x y w (h / 2)),
          ih _ ha ctx, List.append_assoc]

theorem computeTiles_length_ctx (n : Nat) :
    ∀ (ctx : List Tile) (x y w h : Int),
      (computeTiles ctx n x y w h).length = ctx.length + n := by
  induction n using Nat.strong_induction_on with
  | _ n ih =>
    intro ctx x y w h
    rcases Nat.lt_or_ge n 2 with hlt | hge
    · interval_cases n
      · simp [computeTiles_zero]
      · simp [computeTiles_one]
    · have ha : n / 2 < n := by omega
      have hb : n - n / 2 < n := by omega
      by_cases hwh : w > h
      · rw [computeTiles_vertical ctx n x y w h hge hwh, ih _ hb, ih _ ha]; omega
      · rw [computeTiles_horizontal ctx n x y w h hge hwh, ih _ hb, ih _ ha]; omega

theorem computeTiles_length_nil (n : Nat) (x y w h : Int) :
    (computeTiles [] n x y w h).length = n := by
  simpa using computeTiles_length_ctx n [] x y w h

theorem computeTiles_two_vertical (x y w h : Int) (hwh : w > h) :
    computeTiles [] 2 x y w h =
      [⟨x, y, w / 2, h⟩, ⟨x + w / 2 + 1, y, w - w / 2, h⟩] := by
  rw [computeTiles_vertical [] 2 x y w h (by decide) hwh]
  simp [computeTiles_one]

theorem computeTiles_two_horizontal (x y w h : Int) (hwh : ¬ w > h) :
    computeTiles [] 2 x y w h =
      [⟨x, y, w, h / 2⟩, ⟨x, y + h / 2 + 1, w, h - h / 2⟩] := by
  rw [computeTiles_horizontal [] 2 x y w h (by decide) hwh]
  simp [computeTiles_one]

/-! ## The filter loops -/

theorem shouldAddAfter_eq {W : Type} (filters : List (W → Bool)) (w : W) :
    ∀ (s : Nat), s ≤ 1 →
      shouldAddAfter filters w s =
        if s = 1 ∧ filters.all (fun f => f w) = true then 1 else 0 := by
  induction filters with
  | nil =>
    intro s hs
    interval_cases s <;> simp [shouldAddAfter]
  | cons f fs ih =>
    intro s hs
    have hstep : shouldAddAfter (f :: fs) w s =
        shouldAddAfter fs w (s &&& boolToInt32 (f w)) := rfl
    rw [hstep]
    interval_cases s <;> cases hf : f w <;>
      simp [boolToInt32, ih, hf]

theorem shouldAddAfter_ne_zero {W : Type} (filters : List (W → Bool)) (w : W) :
    shouldAddAfter filters w 1 ≠ 0 ↔ filters.all (fun f => f w) = true := by
  rw [shouldAddAfter_eq filters w 1 (Nat.le_refl 1)]
  by_cases h : filters.all (fun f => f w) = true <;> simp [h]

theorem filterWindows_foldl {W : Type} (filters : List (W → Bool))
    (ws : List W) :
    ∀ (filtered : List W),
      ws.foldl
          (fun filtered w =>
            if shouldAddAfter filters w 1 ≠ 0 then filtered ++ [w] else filtered)
          filtered =
        filtered ++ ws.filter (fun w => filters.all (fun f => f w)) := by
  induction ws with
  | nil => intro filtered; simp
  | cons w ws ih =>
    intro filtered
    rw [List.foldl_cons, ih]
    by_cases h : filters.all (fun f => f w) = true
    · rw [if_pos ((shouldAddAfter_ne_zero filters w).2 h)]
      simp [List.filter_cons, h]
    · rw [if_neg (fun hne => h ((shouldAddAfter_ne_zero filters w).1 hne))]
      simp [List.filter_cons, h]

/-! ## Evaluation on an elongated zone -/

/-- Four windows on the zone `{0, 0, 1000, 10}`: both levels split the width,
and the second tile ends at 501, where the third tile begins. -/
theorem computeTiles_four_on_1000x10 :
    computeTiles [] 4 0 0 1000 10 =
      [⟨0, 0, 250, 10⟩, ⟨251, 0, 250, 10⟩, ⟨501, 0, 250, 10⟩, ⟨752, 0, 250, 10⟩] := by
  simp [computeTiles, pushTileIntoTileContext]

/-- Six windows on the zone `{0, 0, 16, 1}`: the third tile covers
`x = 8, 9` and the fourth starts at `x = 9`. -/
theorem computeTiles_six_on_16x1 :
    computeTiles [] 6 0 0 16 1 =
      [⟨0, 0, 4, 1⟩, ⟨5, 0, 2, 1⟩, ⟨8, 0, 2, 1⟩,
        ⟨9, 0, 4, 1⟩, ⟨14, 0, 2, 1⟩, ⟨17, 0, 2, 1⟩] := by
  simp [computeTiles, pushTileIntoTileContext]

/-! ## Claims -/

/-- C1: for every count and every zone, `computeTiles` called with an empty
tile context returns a list of exactly `count` rectangles. -/
theorem computeTiles_length (count : Nat) (left top width height : Int) :
    (computeTiles [] count left top width height).length = count := by
  simpa using computeTiles_length_ctx count [] left top width height

/-- C2 (evaluation at the failing input): for 18 windows on the zone
`{0, 0, 1920, 1080}` the tiles at positions 8 and 14 are
`{722, 812, 240, 270}` and `{961, 812, 480, 270}`, and the point `(961, 812)`
lies in both half-open rectangles, so two returned tiles overlap. -/
theorem computeTiles_overlap_at_18_on_1920x1080 :
    ∃ (i j : Nat) (a b : Tile) (px py : Int),
      i ≠ j ∧
      (computeTiles [] 18 0 0 1920 1080)[i]? = some a ∧
      (computeTiles [] 18 0 0 1920 1080)[j]? = some b ∧
      (a.left ≤ px ∧ px < a.left + a.width ∧ a.top ≤ py ∧ py < a.top + a.height) ∧
      (b.left ≤ px ∧ px < b.left + b.width ∧ b.top ≤ py ∧ py < b.top + b.height) := by
  refine ⟨8, 14, ⟨722, 812, 240, 270⟩, ⟨961, 812, 480, 270⟩, 961, 812,
    by decide, ?_, ?_, by decide, by decide⟩
  · simp [computeTiles, pushTileIntoTileContext]
  · simp [computeTiles, pushTileIntoTileContext]

/-- C3 (evaluation at the failing input): for 6 windows on the zone
`{0, 0, 1920, 1080}` the code returns the six tiles below; the tile at
position 2, `{481, 541, 480, 540}`, ends at `481 + 480 = 961`, which is the
`left` of the tiles at positions 3 and 4, so neighbouring tiles share a
boundary coordinate and no 1-unit gap is left between them. -/
theorem computeTiles_touching_at_6_on_1920x1080 :
    computeTiles [] 6 0 0 1920 1080 =
        [⟨0, 0, 960, 540⟩, ⟨0, 541, 480, 540⟩, ⟨481, 541, 480, 540⟩,
          ⟨961, 0, 960, 540⟩, ⟨961, 541, 480, 540⟩, ⟨1442, 541, 480, 540⟩] ∧
      ∃ (i j : Nat) (a b : Tile),
        i ≠ j ∧
        (computeTiles [] 6 0 0 1920 1080)[i]? = some a ∧
        (computeTiles [] 6 0 0 1920 1080)[j]? = some b ∧
        a.left + a.width = b.left := by
  have h : computeTiles [] 6 0 0 1920 1080 =
      [⟨0, 0, 960, 540⟩, ⟨0, 541, 480, 540⟩, ⟨481, 541, 480, 540⟩,
        ⟨961, 0, 960, 540⟩, ⟨961, 541, 480, 540⟩, ⟨1442, 541, 480, 540⟩] := by
    simp [computeTiles, pushTileIntoTileContext]
  refine ⟨h, 2, 4, ⟨481, 541, 480, 540⟩, ⟨961, 541, 480, 540⟩, by decide, ?_, ?_,
    by decide⟩
  · rw [h]; rfl
  · rw [h]; rfl

/-- C4 (evaluation at the failing input): for 2 windows on the zone
`{0, 0, 1000, 500}` the returned tile `{501, 0, 500, 500}` has
`left + width = 1001`, beyond the zone's right edge `0 + 1000`. -/
theorem computeTiles_tile_outside_zone_at_2_on_1000x500 :
    ∃ t ∈ computeTiles [] 2 0 0 1000 500,
      t = ⟨501, 0, 500, 500⟩ ∧ ¬ (t.left + t.width ≤ 0 + 1000) := by
  refine ⟨⟨501, 0, 500, 500⟩, ?_, rfl, by decide⟩
  simp [computeTiles, pushTileIntoTileContext]

/-- C5: for count ≥ 2 and a zone wider than high, the result is the tiles of
the left sub-zone `{left, top, ⌊width/2⌋, height}` for `⌊count/2⌋` windows
followed by the tiles of the right sub-zone
`{left + ⌊width/2⌋ + 1, top, width - ⌊width/2⌋, height}` for
`count - ⌊count/2⌋` windows; the first part has `⌊count/2⌋` tiles and the
second `⌈count/2⌉`. -/
theorem computeTiles_split_vertical (count : Nat) (left top width height : Int)
    (hc : 2 ≤ count) (hwh : width > height) :
    computeTiles [] count left top width height =
        computeTiles [] (count / 2) left top (width / 2) height ++
          computeTiles [] (count - count / 2)
            (left + width / 2 + 1) top (width - width / 2) height ∧
      (computeTiles [] (count / 2) left top (width / 2) height).length
        = count / 2 ∧
      (computeTiles [] (count - count / 2)
          (left + width / 2 + 1) top (width - width / 2) height).length
        = (count + 1) / 2 := by
  refine ⟨?_, computeTiles_length_ctx _ [] _ _ _ _ |>.trans (by simp), ?_⟩
  · rw [computeTiles_vertical [] count left top width height hc hwh,
      computeTiles_append]
  · rw [computeTiles_length_ctx]
    simp only [List.length_nil]
    omega

/-- C5, instance: 2 windows on the zone `{0, 0, 1000, 500}`. -/
theorem computeTiles_split_vertical_witness :
    2 ≤ 2 ∧ (1000 : Int) > 500 ∧
    (computeTiles [] 2 0 0 1000 500 =
        computeTiles [] (2 / 2) 0 0 (1000 / 2) 500 ++
          computeTiles [] (2 - 2 / 2) (0 + 1000 / 2 + 1) 0 (1000 - 1000 / 2) 500 ∧
      (computeTiles [] (2 / 2) 0 0 (1000 / 2) 500).length = 2 / 2 ∧
      (computeTiles [] (2 - 2 / 2)
          (0 + 1000 / 2 + 1) 0 (1000 - 1000 / 2) 500).length = (2 + 1) / 2) :=
  ⟨by decide, by decide,
    computeTiles_split_vertical 2 0 0 1000 500 (by decide) (by decide)⟩

/-- C6: for count ≥ 2 and a zone at least as high as wide (equal sides
included), the split is horizontal: the result is the tiles of
`{left, top, width, ⌊height/2⌋}` for `⌊count/2⌋` windows followed by the tiles
of `{left, top + ⌊height/2⌋ + 1, width, height - ⌊height/2⌋}` for
`count - ⌊count/2⌋` windows; and for count = 2 on a square zone both tiles
keep the zone's left and full width. -/
theorem computeTiles_split_horizontal (count : Nat)
    (left top width height : Int)
    (hc : 2 ≤ count) (hwh : height ≥ width) :
    computeTiles [] count left top width height =
        computeTiles [] (count / 2) left top width (height / 2) ++
          computeTiles [] (count - count / 2)
            left (top + height / 2 + 1) width (height - height / 2) ∧
      (count = 2 → width = height →
        ∀ t ∈ computeTiles [] count left top width height,
          t.left = left ∧ t.width = width) := by
  have hn : ¬ width > height := by omega
  refine ⟨?_, ?_⟩
  · rw [computeTiles_horizontal [] count left top width height hc hn,
      computeTiles_append]
  · intro h2 _ t ht
    subst h2
    rw [computeTiles_two_horizontal _ _ _ _ hn] at ht
    simp only [List.mem_cons, List.mem_singleton, List.not_mem_nil, or_false] at ht
    rcases ht with rfl | rfl <;> exact ⟨rfl, rfl⟩

/-- C6, instance: 2 windows on the square zone `{0, 0, 500, 500}`. -/
theorem computeTiles_split_horizontal_witness :
    2 ≤ 2 ∧ (500 : Int) ≥ 500 ∧
    (computeTiles [] 2 0 0 500 500 =
        computeTiles [] (2 / 2) 0 0 500 (500 / 2) ++
          computeTiles [] (2 - 2 / 2) 0 (0 + 500 / 2 + 1) 500 (500 - 500 / 2) ∧
      (2 = 2 → (500 : Int) = 500 →
        ∀ t ∈ computeTiles [] 2 0 0 500 500, t.left = 0 ∧ t.width = 500)) :=
  ⟨by decide, by decide,
    computeTiles_split_horizontal 2 0 0 500 500 (by decide) (by decide)⟩

/-- C7: for every zone, `computeTiles` for one window with an empty tile
context returns the single-element list holding the zone itself. -/
theorem computeTiles_single (left top width height : Int) :
    computeTiles [] 1 left top width height =
      [{ left := left, top := top, width := width, height := height }] := by
  simp [computeTiles_one]

/-- C8 (evaluation at the failing input): for 2 windows on the zone
`{0, 0, 1000, 500}` the code returns `{0, 0, 500, 500}` and
`{501, 0, 500, 500}`; the second tile is 500 wide, not 499. -/
theorem computeTiles_scenario_A :
    computeTiles [] 2 0 0 1000 500 =
        [⟨0, 0, 500, 500⟩, ⟨501, 0, 500, 500⟩] ∧
      computeTiles [] 2 0 0 1000 500 ≠
        [⟨0, 0, 500, 500⟩, ⟨501, 0, 499, 500⟩] := by
  have h : computeTiles [] 2 0 0 1000 500 =
      [⟨0, 0, 500, 500⟩, ⟨501, 0, 500, 500⟩] := by
    simp [computeTiles, pushTileIntoTileContext]
  refine ⟨h, ?_⟩
  rw [h]
  decide

/-- C9 (evaluation at the failing input): for 3 windows on the zone
`{0, 0, 1000, 500}` the code returns `{0, 0, 500, 500}`,
`{501, 0, 500, 250}` and `{501, 251, 500, 250}`; the second sub-zone is the
square `{501, 0, 500, 500}`, so its horizontal split comes from the tie-break,
and the last two tiles are 500 wide and 250 high, not 499 wide and 250, 249
high. -/
theorem computeTiles_scenario_B :
    computeTiles [] 3 0 0 1000 500 =
        [⟨0, 0, 500, 500⟩, ⟨501, 0, 500, 250⟩, ⟨501, 251, 500, 250⟩] ∧
      computeTiles [] 3 0 0 1000 500 ≠
        [⟨0, 0, 500, 500⟩, ⟨501, 0, 499, 250⟩, ⟨501, 251, 499, 249⟩] ∧
      computeTiles [] 3 0 0 1000 500 =
        ⟨0, 0, 500, 500⟩ :: computeTiles [] 2 501 0 500 500 := by
  have h : computeTiles [] 3 0 0 1000 500 =
      [⟨0, 0, 500, 500⟩, ⟨501, 0, 500, 250⟩, ⟨501, 251, 500, 250⟩] := by
    simp [computeTiles, pushTileIntoTileContext]
  have h2 : computeTiles [] 2 501 0 500 500 =
      [⟨501, 0, 500, 250⟩, ⟨501, 251, 500, 250⟩] := by
    simp [computeTiles, pushTileIntoTileContext]
  refine ⟨h, ?_, ?_⟩
  · rw [h]
    decide
  · rw [h, h2]

/-- C10: for every list of windows and every list of boolean predicates,
`filterWindows` returns exactly the windows passing every predicate, in their
original relative order (it is the order-preserving filter by the conjunction
of the predicates); the result is a subsequence of the input, and each of its
windows passes every predicate. -/
theorem filterWindows_eq_filter {W : Type} (ws : List W)
    (ps : List (W → Bool)) :
    filterWindows ws ps = ws.filter (fun w => ps.all (fun p => p w)) ∧
      (filterWindows ws ps).Sublist ws ∧
      (∀ w ∈ filterWindows ws ps, ∀ p ∈ ps, p w = true) ∧
      (∀ w ∈ ws, (∀ p ∈ ps, p w = true) → w ∈ filterWindows ws ps) := by
  have h : filterWindows ws ps = ws.filter (fun w => ps.all (fun p => p w)) := by
    simpa [filterWindows] using filterWindows_foldl ps ws []
  refine ⟨h, ?_, ?_, ?_⟩
  · rw [h]
    exact List.filter_sublist ws
  · intro w hw p hp
    rw [h, List.mem_filter] at hw
    exact List.all_eq_true.1 hw.2 p hp
  · intro w hw hall
    rw [h, List.mem_filter]
    exact ⟨hw, List.all_eq_true.2 hall⟩

/-! ## One tiling pass -/

theorem foldl_push_if {W : Type} (p : W → Bool) (ws : List W) :
    ∀ (acc : List W),
      ws.foldl (fun acc w => if p w then acc ++ [w] else acc) acc =
        acc ++ ws.filter p := by
  induction ws with
  | nil => intro acc; simp
  | cons w ws ih =>
    intro acc
    rw [List.foldl_cons, ih]
    by_cases h : p w = true <;> simp [List.filter_cons, h]

theorem windowsThatAreNotWithinScreen_eq (screen : Screen) (ws : List Window) :
    windowsThatAreNotWithinScreen screen ws =
      ws.filter (fun w => !windowIsWithinScreen screen w) := by
  have h := foldl_push_if (fun w => !windowIsWithinScreen screen w) ws []
  simpa [windowsThatAreNotWithinScreen] using h

theorem filterWindows_tiler (screen : Screen) (ws : List Window) :
    filterWindows ws [windowIsNonMinimized, windowIsWithinScreen screen] =
      ws.filter (fun w =>
        decide (w.state ≠ "minimized") && windowIsWithinScreen screen w) := by
  have h : filterWindows ws [windowIsNonMinimized, windowIsWithinScreen screen] =
      ws.filter (fun w =>
        [windowIsNonMinimized, windowIsWithinScreen screen].all (fun f => f w)) := by
    simpa [filterWindows] using
      filterWindows_foldl [windowIsNonMinimized, windowIsWithinScreen screen] ws []
  rw [h]
  congr 1
  funext w
  by_cases hs : w.state = "minimized" <;> simp [windowIsNonMinimized, hs]

/-- The resize loop never reads past the end of `filteredWindows` when at
least as many windows remain as tiles; it then issues one command per tile. -/
theorem resizeLoop_eq (filteredWindows : List Window) :
    ∀ (tiles : List Tile) (i : Nat) (effects : List Effect),
      i + tiles.length ≤ filteredWindows.length →
      resizeLoop filteredWindows tiles i effects =
        { effects := effects ++
            List.zipWith
              (fun w t => Effect.update w.id t.left t.top t.width t.height "normal")
              (filteredWindows.drop i) tiles,
          completed := true } := by
  intro tiles
  induction tiles with
  | nil => intro i effects _; simp [resizeLoop]
  | cons t rest ih =>
    intro i effects hlen
    simp only [List.length_cons] at hlen
    have hi : i < filteredWindows.length := by omega
    have hdrop : filteredWindows.drop i =
        filteredWindows[i] :: filteredWindows.drop (i + 1) :=
      List.drop_eq_getElem_cons hi
    rw [resizeLoop, List.getElem?_eq_getElem hi]
    simp only
    rw [ih (i + 1) _ (by omega), hdrop]
    simp only [List.zipWith_cons_cons, List.append_assoc, List.singleton_append,
      repositionAndResizeWindow]

/-- The windows a pass tiles: those not minimized and within the screen. -/
theorem tileWindows_eq (screen : Screen) (ws : List Window) (firstTime : Bool) :
    tileWindows screen ws firstTime =
      { effects :=
          (if firstTime = true ∧
              0 < (ws.filter (fun w => !windowIsWithinScreen screen w)).length then
            [Effect.alert (ws.filter (fun w => !windowIsWithinScreen screen w)).length]
          else []) ++
          List.zipWith
            (fun w t => Effect.update w.id t.left t.top t.width t.height "normal")
            (ws.filter (fun w =>
              decide (w.state ≠ "minimized") && windowIsWithinScreen screen w))
            (computeTiles []
              (ws.filter (fun w =>
                decide (w.state ≠ "minimized") &&
                  windowIsWithinScreen screen w)).length
              screen.availLeft screen.availTop screen.availWidth screen.availHeight),
        completed := true } := by
  unfold tileWindows
  simp only [windowsThatAreNotWithinScreen_eq, filterWindows_tiler]
  rw [resizeLoop_eq _ _ 0 _ (by simp [computeTiles_length_ctx])]
  simp

theorem zipWith_update_filter_isUpdate (ws : List Window) :
    ∀ (tiles : List Tile),
      (List.zipWith
          (fun w t => Effect.update w.id t.left t.top t.width t.height "normal")
          ws tiles).filter Effect.isUpdate =
        List.zipWith
          (fun w t => Effect.update w.id t.left t.top t.width t.height "normal")
          ws tiles := by
  induction ws with
  | nil => intro tiles; simp
  | cons w ws ih =>
    intro tiles
    cases tiles with
    | nil => simp
    | cons t tiles => simp [Effect.isUpdate, ih]

theorem zipWith_update_filter_isAlert (ws : List Window) :
    ∀ (tiles : List Tile),
      (List.zipWith
          (fun w t => Effect.update w.id t.left t.top t.width t.height "normal")
          ws tiles).filter Effect.isAlert = [] := by
  induction ws with
  | nil => intro tiles; simp
  | cons w ws ih =>
    intro tiles
    cases tiles with
    | nil => simp
    | cons t tiles => simp [Effect.isAlert, ih]

/-- The resize commands of a pass, whatever `firstTime` is. -/
theorem tileWindows_updates (screen : Screen) (ws : List Window)
    (firstTime : Bool) :
    (tileWindows screen ws firstTime).effects.filter Effect.isUpdate =
      List.zipWith
        (fun w t => Effect.update w.id t.left t.top t.width t.height "normal")
        (ws.filter (fun w =>
          decide (w.state ≠ "minimized") && windowIsWithinScreen screen w))
        (computeTiles []
          (ws.filter (fun w =>
            decide (w.state ≠ "minimized") &&
              windowIsWithinScreen screen w)).length
          screen.availLeft screen.availTop screen.availWidth screen.availHeight) := by
  rw [tileWindows_eq]
  simp only [List.filter_append, zipWith_update_filter_isUpdate]
  split <;> simp [Effect.isUpdate]

/-- The notifications of a pass. -/
theorem tileWindows_alerts (screen : Screen) (ws : List Window)
    (firstTime : Bool) :
    (tileWindows screen ws firstTime).effects.filter Effect.isAlert =
      if firstTime = true ∧
          0 < (ws.filter (fun w => !windowIsWithinScreen screen w)).length then
        [Effect.alert (ws.filter (fun w => !windowIsWithinScreen screen w)).length]
      else [] := by
  rw [tileWindows_eq]
  simp only [List.filter_append, zipWith_update_filter_isAlert]
  split <;> simp [Effect.isAlert]

theorem tileWindows_completed (screen : Screen) (ws : List Window)
    (firstTime : Bool) :
    (tileWindows screen ws firstTime).completed = true := by
  rw [tileWindows_eq]

/-! ## Claims on the screen test and the tiling passes -/

/-- C11 (counterexample): on a screen 1920 by 1080 whose work area is
`(0, 0, 1920, 1040)`, a window whose corner is at `(0, 1060)` passes
`windowIsWithinScreen` although `1060` exceeds `availTop + availHeight = 1040`:
the test is not the work-area test. -/
theorem windowIsWithinScreen_below_work_area :
    windowIsWithinScreen ⟨0, 0, 1920, 1040, 1920, 1080⟩
        ⟨1, "normal", 0, 1060, 800, 600⟩ = true ∧
      ¬ ((0 : Int) ≤ 0 ∧ (0 : Int) ≤ 0 + 1920 ∧
          (0 : Int) ≤ 1060 ∧ (1060 : Int) ≤ 0 + 1040) := by
  decide

/-- C11 (amended): `windowIsWithinScreen` is true exactly when
`availLeft ≤ w.left ≤ availLeft + screen.width` and
`availTop ≤ w.top ≤ availTop + screen.height`, with the full screen width and
height (not `availWidth`, `availHeight`) added to the work-area origin; both
bounds on each axis are inclusive, and the window's width and height play no
role. -/
theorem windowIsWithinScreen_iff (screen : Screen) (w : Window) :
    (windowIsWithinScreen screen w = true ↔
        (screen.availLeft ≤ w.left ∧ w.left ≤ screen.availLeft + screen.width) ∧
        (screen.availTop ≤ w.top ∧ w.top ≤ screen.availTop + screen.height)) ∧
      (∀ (width height : Int),
        windowIsWithinScreen screen { w with width := width, height := height } =
          windowIsWithinScreen screen w) := by
  refine ⟨?_, fun _ _ => rfl⟩
  simp only [windowIsWithinScreen, Bool.and_eq_true, decide_eq_true_eq, ge_iff_le]
  tauto

/-- C12: whatever `firstTime` is, a pass runs to its end; with `F` the
windows of the snapshot that are not minimized and pass
`windowIsWithinScreen`, in snapshot order, and `T` the tiles computed for
`|F|` windows on the work area, `|T| = |F|`, the resize commands of the pass
are exactly the commands `(F[i].id, T[i].left, T[i].top, T[i].width,
T[i].height, 'normal')` for `i = 0 .. |F| - 1` in that order, and every other
effect of the pass is the notification. -/
theorem tileWindows_commands (screen : Screen) (ws : List Window)
    (firstTime : Bool) :
    (computeTiles []
        (ws.filter (fun w =>
          decide (w.state ≠ "minimized") &&
            windowIsWithinScreen screen w)).length
        screen.availLeft screen.availTop screen.availWidth
        screen.availHeight).length =
      (ws.filter (fun w =>
        decide (w.state ≠ "minimized") &&
          windowIsWithinScreen screen w)).length ∧
    (tileWindows screen ws firstTime).completed = true ∧
    ((tileWindows screen ws firstTime).effects.filter Effect.isUpdate).length =
      (ws.filter (fun w =>
        decide (w.state ≠ "minimized") &&
          windowIsWithinScreen screen w)).length ∧
    (∀ (i : Nat) (w : Window) (t : Tile),
      (ws.filter (fun w =>
        decide (w.state ≠ "minimized") &&
          windowIsWithinScreen screen w))[i]? = some w →
      (computeTiles []
        (ws.filter (fun w =>
          decide (w.state ≠ "minimized") &&
            windowIsWithinScreen screen w)).length
        screen.availLeft screen.availTop screen.availWidth
        screen.availHeight)[i]? = some t →
      ((tileWindows screen ws firstTime).effects.filter Effect.isUpdate)[i]? =
        some (Effect.update w.id t.left t.top t.width t.height "normal")) ∧
    (tileWindows screen ws firstTime).effects =
      (tileWindows screen ws firstTime).effects.filter Effect.isAlert ++
        (tileWindows screen ws firstTime).effects.filter Effect.isUpdate := by
  refine ⟨computeTiles_length_nil _ _ _ _ _, tileWindows_completed _ _ _, ?_, ?_, ?_⟩
  · rw [tileWindows_updates, List.length_zipWith, computeTiles_length_nil]
    simp
  · intro i w t hw ht
    rw [tileWindows_updates, List.getElem?_zipWith, hw, ht]
  · rw [tileWindows_alerts, tileWindows_updates]
    exact congrArg PassOutcome.effects (tileWindows_eq screen ws firstTime)

/-- C13 (counterexample): on a screen 1920 by 1080 whose work area is
`(0, 0, 1920, 1040)`, a snapshot whose only window has its corner at
`(0, 1060)`: the window is outside the work area (`1060 > 0 + 1040`), yet
neither pass shows the notification, and both passes tile the window. -/
theorem onReceivedWindowsData_silent_outside_work_area :
    ¬ ((1060 : Int) ≤ (⟨0, 0, 1920, 1040, 1920, 1080⟩ : Screen).availTop +
        (⟨0, 0, 1920, 1040, 1920, 1080⟩ : Screen).availHeight) ∧
    onReceivedWindowsData ⟨0, 0, 1920, 1040, 1920, 1080⟩
        ⟨0, 0, 1920, 1040, 1920, 1080⟩ [⟨1, "normal", 0, 1060, 800, 600⟩] =
      [{ effects := [Effect.update 1 0 0 1920 1040 "normal"], completed := true },
        { effects := [Effect.update 1 0 0 1920 1040 "normal"],
          completed := true }] := by
  constructor
  · decide
  · simp [onReceivedWindowsData, tileWindows, windowsThatAreNotWithinScreen,
      windowIsWithinScreen, filterWindows, shouldAddAfter, boolToInt32,
      windowIsNonMinimized, computeTiles_one, resizeLoop,
      repositionAndResizeWindow]

/-- C13 (amended): the sequence started by `onReceivedWindowsData` is the
first pass followed by the retry pass; the first pass shows the notification
exactly when at least one window of the snapshot fails
`windowIsWithinScreen`, and then once, reporting the number of such windows;
the retry pass never shows it; so the whole sequence shows it at most once,
and exactly once with count 1 when exactly one window fails
`windowIsWithinScreen`. -/
theorem onReceivedWindowsData_notification (screenFirst screenRetry : Screen)
    (ws : List Window) :
    onReceivedWindowsData screenFirst screenRetry ws =
      [tileWindows screenFirst ws true, tileWindows screenRetry ws false] ∧
    (tileWindows screenFirst ws true).effects.filter Effect.isAlert =
      (if 0 < (ws.filter (fun w => !windowIsWithinScreen screenFirst w)).length then
        [Effect.alert
          (ws.filter (fun w => !windowIsWithinScreen screenFirst w)).length]
      else []) ∧
    ((∃ e ∈ (tileWindows screenFirst ws true).effects, e.isAlert = true) ↔
      ∃ w ∈ ws, windowIsWithinScreen screenFirst w = false) ∧
    (tileWindows screenRetry ws false).effects.filter Effect.isAlert = [] ∧
    ((onReceivedWindowsData screenFirst screenRetry ws).flatMap
      (fun pass => pass.effects.filter Effect.isAlert)).length ≤ 1 ∧
    ((ws.filter (fun w => !windowIsWithinScreen screenFirst w)).length = 1 →
      (onReceivedWindowsData screenFirst screenRetry ws).flatMap
        (fun pass => pass.effects.filter Effect.isAlert) = [Effect.alert 1]) := by
  have hseq : onReceivedWindowsData screenFirst screenRetry ws =
      [tileWindows screenFirst ws true, tileWindows screenRetry ws false] := by
    simp [onReceivedWindowsData, tileWindows_completed]
  have hfirst := tileWindows_alerts screenFirst ws true
  have hretry : (tileWindows screenRetry ws false).effects.filter Effect.isAlert
      = [] := by
    rw [tileWindows_alerts]; simp
  simp only [true_and] at hfirst
  refine ⟨hseq, hfirst, ?_, hretry, ?_, ?_⟩
  · have hmem : (∃ e ∈ (tileWindows screenFirst ws true).effects,
          e.isAlert = true) ↔
        (tileWindows screenFirst ws true).effects.filter Effect.isAlert ≠ [] := by
      rw [Ne, List.filter_eq_nil_iff]
      push_neg
      rfl
    rw [hmem, hfirst]
    constructor
    · intro h
      by_cases hpos :
          0 < (ws.filter (fun w => !windowIsWithinScreen screenFirst w)).length
      · obtain ⟨w, hw⟩ := List.exists_mem_of_length_pos hpos
        rw [List.mem_filter] at hw
        exact ⟨w, hw.1, by simpa using hw.2⟩
      · rw [if_neg hpos] at h
        exact absurd rfl h
    · rintro ⟨w, hw, hout⟩
      have hin : w ∈ ws.filter (fun w => !windowIsWithinScreen screenFirst w) := by
        rw [List.mem_filter]
        exact ⟨hw, by simp [hout]⟩
      rw [if_pos (List.length_pos_of_mem hin)]
      simp
  · rw [hseq]
    simp only [List.flatMap_cons, List.flatMap_nil, hretry, hfirst,
      List.append_nil]
    split <;> simp
  · intro h1
    rw [hseq]
    simp only [List.flatMap_cons, List.flatMap_nil, hretry, hfirst,
      List.append_nil, h1]
    simp

/-- C14 (counterexample): a first pass over a snapshot whose only window has
its corner at `(3000, 100)`, off a 1920 by 1080 screen: no window is left to
tile, and the pass shows the notification with count 1. -/
theorem tileWindows_notifies_with_nothing_to_tile :
    (filterWindows [(⟨7, "normal", 3000, 100, 800, 600⟩ : Window)]
        [windowIsNonMinimized,
          windowIsWithinScreen ⟨0, 0, 1920, 1040, 1920, 1080⟩]).length = 0 ∧
      tileWindows ⟨0, 0, 1920, 1040, 1920, 1080⟩
          [⟨7, "normal", 3000, 100, 800, 600⟩] true =
        { effects := [Effect.alert 1], completed := true } := by
  constructor
  · simp [filterWindows, shouldAddAfter, boolToInt32, windowIsNonMinimized,
      windowIsWithinScreen]
  · simp [tileWindows, windowsThatAreNotWithinScreen, windowIsWithinScreen,
      filterWindows, shouldAddAfter, boolToInt32, windowIsNonMinimized,
      computeTiles_zero, resizeLoop]

/-- C14 (amended): in every first pass in which no window is left to tile,
the tile list is empty and no resize command is issued; the notification is
shown exactly when some window of the snapshot fails `windowIsWithinScreen`
(with the number of such windows), so no notification is shown when every
window of the snapshot passes that test, as for an empty snapshot. -/
theorem tileWindows_nothing_to_tile (screen : Screen) (ws : List Window)
    (h0 : (filterWindows ws
        [windowIsNonMinimized, windowIsWithinScreen screen]).length = 0) :
    computeTiles []
        (filterWindows ws
          [windowIsNonMinimized, windowIsWithinScreen screen]).length
        screen.availLeft screen.availTop screen.availWidth screen.availHeight
      = [] ∧
    (tileWindows screen ws true).effects.filter Effect.isUpdate = [] ∧
    (tileWindows screen ws true).effects =
      (if 0 < (ws.filter (fun w => !windowIsWithinScreen screen w)).length then
        [Effect.alert (ws.filter (fun w => !windowIsWithinScreen screen w)).length]
      else []) ∧
    ((∀ w ∈ ws, windowIsWithinScreen screen w = true) →
      (tileWindows screen ws true).effects = []) := by
  have hF : ws.filter (fun w =>
      decide (w.state ≠ "minimized") && windowIsWithinScreen screen w) = [] := by
    rw [← filterWindows_tiler]
    exact List.length_eq_zero.1 h0
  have heff : (tileWindows screen ws true).effects =
      (if 0 < (ws.filter (fun w => !windowIsWithinScreen screen w)).length then
        [Effect.alert (ws.filter (fun w => !windowIsWithinScreen screen w)).length]
      else []) := by
    rw [tileWindows_eq, hF]
    simp
  refine ⟨by rw [h0, computeTiles_zero], ?_, heff, ?_⟩
  · rw [tileWindows_updates, hF]
    simp
  · intro hall
    rw [heff]
    have hnone : ws.filter (fun w => !windowIsWithinScreen screen w) = [] := by
      rw [List.filter_eq_nil_iff]
      intro w hw
      simp [hall w hw]
    rw [hnone]
    simp

/-- C14 (amended), instance: a snapshot whose only window is minimized, on a
1920 by 1080 screen. -/
theorem tileWindows_nothing_to_tile_witness :
    (filterWindows [(⟨8, "minimized", 30, 100, 800, 600⟩ : Window)]
        [windowIsNonMinimized,
          windowIsWithinScreen ⟨0, 0, 1920, 1040, 1920, 1080⟩]).length = 0 ∧
    (computeTiles []
        (filterWindows [(⟨8, "minimized", 30, 100, 800, 600⟩ : Window)]
          [windowIsNonMinimized,
            windowIsWithinScreen ⟨0, 0, 1920, 1040, 1920, 1080⟩]).length
        (⟨0, 0, 1920, 1040, 1920, 1080⟩ : Screen).availLeft
        (⟨0, 0, 1920, 1040, 1920, 1080⟩ : Screen).availTop
        (⟨0, 0, 1920, 1040, 1920, 1080⟩ : Screen).availWidth
        (⟨0, 0, 1920, 1040, 1920, 1080⟩ : Screen).availHeight
      = [] ∧
    (tileWindows ⟨0, 0, 1920, 1040, 1920, 1080⟩
      [⟨8, "minimized", 30, 100, 800, 600⟩] true).effects.filter
        Effect.isUpdate = [] ∧
    (tileWindows ⟨0, 0, 1920, 1040, 1920, 1080⟩
      [⟨8, "minimized", 30, 100, 800, 600⟩] true).effects =
      (if 0 < (([⟨8, "minimized", 30, 100, 800, 600⟩] : List Window).filter
          (fun w =>
            !windowIsWithinScreen ⟨0, 0, 1920, 1040, 1920, 1080⟩ w)).length then
        [Effect.alert (([⟨8, "minimized", 30, 100, 800, 600⟩] : List Window).filter
          (fun w =>
            !windowIsWithinScreen ⟨0, 0, 1920, 1040, 1920, 1080⟩ w)).length]
      else []) ∧
    ((∀ w ∈ ([⟨8, "minimized", 30, 100, 800, 600⟩] : List Window),
        windowIsWithinScreen ⟨0, 0, 1920, 1040, 1920, 1080⟩ w = true) →
      (tileWindows ⟨0, 0, 1920, 1040, 1920, 1080⟩
        [⟨8, "minimized", 30, 100, 800, 600⟩] true).effects = [])) :=
  ⟨by simp [filterWindows, shouldAddAfter, boolToInt32, windowIsNonMinimized,
      windowIsWithinScreen],
    tileWindows_nothing_to_tile ⟨0, 0, 1920, 1040, 1920, 1080⟩
      [⟨8, "minimized", 30, 100, 800, 600⟩]
      (by simp [filterWindows, shouldAddAfter, boolToInt32, windowIsNonMinimized,
        windowIsWithinScreen])⟩

/-- C15: with the same snapshot and the same screen, the retry pass issues
exactly the resize commands of the first pass, in the same order, and nothing
else; the first pass differs only by the notification it may show before
them. -/
theorem tileWindows_retry_same_commands (screen : Screen) (ws : List Window) :
    onReceivedWindowsData screen screen ws =
      [tileWindows screen ws true, tileWindows screen ws false] ∧
    (tileWindows screen ws false).effects.filter Effect.isUpdate =
      (tileWindows screen ws true).effects.filter Effect.isUpdate ∧
    (tileWindows screen ws false).effects =
      (tileWindows screen ws true).effects.filter Effect.isUpdate ∧
    (tileWindows screen ws true).effects =
      (tileWindows screen ws true).effects.filter Effect.isAlert ++
        (tileWindows screen ws false).effects := by
  have hretry : (tileWindows screen ws false).effects =
      (tileWindows screen ws true).effects.filter Effect.isUpdate := by
    rw [tileWindows_updates, tileWindows_eq]
    simp
  refine ⟨?_, ?_, hretry, ?_⟩
  · simp [onReceivedWindowsData, tileWindows_completed]
  · rw [tileWindows_updates, tileWindows_updates]
  · rw [hretry, tileWindows_alerts, tileWindows_updates]
    exact congrArg PassOutcome.effects (tileWindows_eq screen ws true)

/-! ## Recursion depth -/

theorem computeTilesDepth_small (n : Nat) (x y w h : Int) (hn : n < 2) :
    computeTilesDepth n x y w h = 0 := by
  rw [computeTilesDepth]
  interval_cases n <;> simp

theorem computeTilesDepth_vertical (n : Nat) (x y w h : Int)
    (hn : 2 ≤ n) (hwh : w > h) :
    computeTilesDepth n x y w h =
      max (computeTilesDepth (n / 2) x y (w / 2) h)
        (computeTilesDepth (n - n / 2) (x + w / 2 + 1) y (w - w / 2) h) + 1 := by
  rw [computeTilesDepth]
  have h0 : n ≠ 0 := by omega
  have h1 : n ≠ 1 := by omega
  simp [h0, h1, hwh]

theorem computeTilesDepth_horizontal (n : Nat) (x y w h : Int)
    (hn : 2 ≤ n) (hwh : ¬ w > h) :
    computeTilesDepth n x y w h =
      max (computeTilesDepth (n / 2) x y w (h / 2))
        (computeTilesDepth (n - n / 2) x (y + h / 2 + 1) w (h - h / 2)) + 1 := by
  rw [computeTilesDepth]
  have h0 : n ≠ 0 := by omega
  have h1 : n ≠ 1 := by omega
  simp [h0, h1, hwh]

theorem computeTilesDepth_le (n : Nat) :
    ∀ (x y w h : Int), computeTilesDepth n x y w h ≤ Nat.clog 2 n := by
  induction n using Nat.strong_induction_on with
  | _ n ih =>
    intro x y w h
    rcases Nat.lt_or_ge n 2 with hlt | hge
    · rw [computeTilesDepth_small n x y w h hlt]
      exact Nat.zero_le _
    · have ha : n / 2 < n := by omega
      have hb : n - n / 2 < n := by omega
      have hclog : Nat.clog 2 n = Nat.clog 2 ((n + 2 - 1) / 2) + 1 :=
        Nat.clog_of_two_le (by decide) hge
      have hceil : (n + 2 - 1) / 2 = n - n / 2 := by omega
      rw [hceil] at hclog
      have hmono : Nat.clog 2 (n / 2) ≤ Nat.clog 2 (n - n / 2) :=
        Nat.clog_mono_right 2 (by omega)
      by_cases hwh : w > h
      · rw [computeTilesDepth_vertical n x y w h hge hwh, hclog]
        have h1 := ih _ ha x y (w / 2) h
        have h2 := ih _ hb (x + w / 2 + 1) y (w - w / 2) h
        exact Nat.succ_le_succ (max_le (h1.trans hmono) h2)
      · rw [computeTilesDepth_horizontal n x y w h hge hwh, hclog]
        have h1 := ih _ ha x y w (h / 2)
        have h2 := ih _ hb x (y + h / 2 + 1) w (h - h / 2)
        exact Nat.succ_le_succ (max_le (h1.trans hmono) h2)

/-- A stack with more frames than the recursion depth is enough for the call
to return, and it returns the tiles of `computeTiles`. -/
theorem computeTilesWithin_of_depth_lt (frames : Nat) :
    ∀ (ctx : List Tile) (n : Nat) (x y w h : Int),
      computeTilesDepth n x y w h < frames →
      computeTilesWithin frames ctx n x y w h =
        some (computeTiles ctx n x y w h) := by
  induction frames with
  | zero => intro ctx n x y w h hlt; omega
  | succ frames ih =>
    intro ctx n x y w h hlt
    rcases Nat.lt_or_ge n 2 with hn | hge
    · interval_cases n
      · simp [computeTilesWithin, computeTiles_zero]
      · simp [computeTilesWithin, computeTiles_one, pushTileIntoTileContext]
    · have h0 : n ≠ 0 := by omega
      have h1 : n ≠ 1 := by omega
      by_cases hwh : w > h
      · rw [computeTilesDepth_vertical n x y w h hge hwh] at hlt
        have hl : computeTilesDepth (n / 2) x y (w / 2) h < frames := by
          have := le_max_left (computeTilesDepth (n / 2) x y (w / 2) h)
            (computeTilesDepth (n - n / 2) (x + w / 2 + 1) y (w - w / 2) h)
          omega
        have hr : computeTilesDepth (n - n / 2) (x + w / 2 + 1) y (w - w / 2) h
            < frames := by
          have := le_max_right (computeTilesDepth (n / 2) x y (w / 2) h)
            (computeTilesDepth (n - n / 2) (x + w / 2 + 1) y (w - w / 2) h)
          omega
        rw [computeTiles_vertical ctx n x y w h hge hwh]
        simp [computeTilesWithin, h0, h1, hwh, ih _ _ _ _ _ _ hl,
          ih _ _ _ _ _ _ hr]
      · rw [computeTilesDepth_horizontal n x y w h hge hwh] at hlt
        have hl : computeTilesDepth (n / 2) x y w (h / 2) < frames := by
          have := le_max_left (computeTilesDepth (n / 2) x y w (h / 2))
            (computeTilesDepth (n - n / 2) x (y + h / 2 + 1) w (h - h / 2))
          omega
        have hr : computeTilesDepth (n - n / 2) x (y + h / 2 + 1) w (h - h / 2)
            < frames := by
          have := le_max_right (computeTilesDepth (n / 2) x y w (h / 2))
            (computeTilesDepth (n - n / 2) x (y + h / 2 + 1) w (h - h / 2))
          omega
        rw [computeTiles_horizontal ctx n x y w h hge hwh]
        simp [computeTilesWithin, h0, h1, hwh, ih _ _ _ _ _ _ hl,
          ih _ _ _ _ _ _ hr]

/-! ## Claims on termination, the comparator and tile geometry -/

/-- C16: for every count and zone, each recursive call of `computeTiles` is
made with a strictly smaller count (`⌊count/2⌋ < count` and
`count - ⌊count/2⌋ < count` when count ≥ 2); the recursion depth below the
top-level call is at most `⌈log₂ count⌉`; and run on a stack of
`⌈log₂ count⌉ + 1` frames (the top-level call and that many nested ones) the
function returns, with the tiles of `computeTiles`. -/
theorem computeTiles_depth_bound (count : Nat) (left top width height : Int) :
    (2 ≤ count → count / 2 < count ∧ count - count / 2 < count) ∧
    computeTilesDepth count left top width height ≤ Nat.clog 2 count ∧
    computeTilesWithin (Nat.clog 2 count + 1) [] count left top width height =
      some (computeTiles [] count left top width height) := by
  refine ⟨fun h => ⟨by omega, by omega⟩, computeTilesDepth_le _ _ _ _ _, ?_⟩
  exact computeTilesWithin_of_depth_lt _ _ _ _ _ _ _
    (Nat.lt_succ_of_le (computeTilesDepth_le _ _ _ _ _))


theorem compareAreas_neg_iff (a b : Tile) :
    compareAreas a b < 0 ↔
      a.width < b.width ∨ (a.width = b.width ∧
        (a.height < b.height ∨ (a.height = b.height ∧
          (a.left < b.left ∨ (a.left = b.left ∧ a.top < b.top))))) := by
  unfold compareAreas
  split_ifs <;> omega

theorem compareAreas_zero_iff (a b : Tile) :
    compareAreas a b = 0 ↔
      a.width = b.width ∧ a.height = b.height ∧ a.left = b.left ∧
        a.top = b.top := by
  unfold compareAreas
  split_ifs <;> omega

theorem compareAreas_flip (a b : Tile) :
    (compareAreas a b < 0 ↔ 0 < compareAreas b a) ∧
      (compareAreas a b = 0 ↔ compareAreas b a = 0) ∧
      (0 < compareAreas a b ↔ compareAreas b a < 0) := by
  unfold compareAreas
  split_ifs <;> omega

/-- C17: `compareAreas a b` is negative, zero or positive exactly when
`(a.width, a.height, a.left, a.top)` is lexicographically less than, equal to
or greater than `(b.width, b.height, b.left, b.top)`; so it is zero exactly
when the four fields agree, its sign is the opposite of the sign of
`compareAreas b a`, and the order it induces is transitive. -/
theorem compareAreas_total_order (a b c : Tile) :
    (compareAreas a b < 0 ↔
      a.width < b.width ∨ (a.width = b.width ∧
        (a.height < b.height ∨ (a.height = b.height ∧
          (a.left < b.left ∨ (a.left = b.left ∧ a.top < b.top)))))) ∧
    (compareAreas a b = 0 ↔
      a.width = b.width ∧ a.height = b.height ∧ a.left = b.left ∧
        a.top = b.top) ∧
    (0 < compareAreas a b ↔
      b.width < a.width ∨ (b.width = a.width ∧
        (b.height < a.height ∨ (b.height = a.height ∧
          (b.left < a.left ∨ (b.left = a.left ∧ b.top < a.top)))))) ∧
    (compareAreas a b = 0 ↔ a = b) ∧
    Int.sign (compareAreas a b) = - Int.sign (compareAreas b a) ∧
    (compareAreas a b < 0 → compareAreas b c < 0 → compareAreas a c < 0) ∧
    (compareAreas a b ≤ 0 → compareAreas b c ≤ 0 → compareAreas a c ≤ 0) := by
  have hzero : compareAreas a b = 0 ↔
      a.width = b.width ∧ a.height = b.height ∧ a.left = b.left ∧
        a.top = b.top := by
    unfold compareAreas
    split_ifs <;> omega
  refine ⟨?_, hzero, ?_, ?_, ?_, ?_, ?_⟩
  · unfold compareAreas
    split_ifs <;> omega
  · unfold compareAreas
    split_ifs <;> omega
  · rw [hzero]
    constructor
    · rintro ⟨hw, hh, hl, ht⟩
      cases a
      cases b
      simp only [Tile.mk.injEq]
      exact ⟨hl, ht, hw, hh⟩
    · rintro rfl
      exact ⟨rfl, rfl, rfl, rfl⟩
  · have hflip : (compareAreas a b < 0 ↔ 0 < compareAreas b a) ∧
        (compareAreas a b = 0 ↔ compareAreas b a = 0) ∧
        (0 < compareAreas a b ↔ compareAreas b a < 0) := by
      unfold compareAreas
      split_ifs <;> omega
    rcases lt_trichotomy (compareAreas a b) 0 with hneg | hz | hpos
    · rw [Int.sign_eq_neg_one_of_neg hneg,
        Int.sign_eq_one_of_pos (hflip.1.1 hneg)]
    · rw [hz, hflip.2.1.1 hz]
      rfl
    · rw [Int.sign_eq_one_of_pos hpos,
        Int.sign_eq_neg_one_of_neg (hflip.2.2.1 hpos)]
      rfl
  · intro hab hbc
    rw [compareAreas_neg_iff] at hab hbc ⊢
    omega
  · intro hab hbc
    have hab2 : compareAreas a b < 0 ∨ compareAreas a b = 0 := by omega
    have hbc2 : compareAreas b c < 0 ∨ compareAreas b c = 0 := by omega
    have hgoal : compareAreas a c < 0 ∨ compareAreas a c = 0 := by
      rw [compareAreas_neg_iff, compareAreas_zero_iff] at hab2 hbc2 ⊢
      omega
    omega

/-! ## Tile geometry -/

theorem computeTiles_area_aux (n : Nat) :
    ∀ (x y w h : Int), 1 ≤ n →
      ((computeTiles [] n x y w h).map (fun t => t.width * t.height)).sum =
        w * h := by
  induction n using Nat.strong_induction_on with
  | _ n ih =>
    intro x y w h hpos
    rcases Nat.lt_or_ge n 2 with hlt | hge
    · have h1 : n = 1 := by omega
      subst h1
      simp [computeTiles_one]
    · have ha : n / 2 < n := by omega
      have hb : n - n / 2 < n := by omega
      have ha1 : 1 ≤ n / 2 := by omega
      have hb1 : 1 ≤ n - n / 2 := by omega
      by_cases hwh : w > h
      · rw [computeTiles_vertical [] n x y w h hge hwh, computeTiles_append,
          List.map_append, List.sum_append, ih _ ha _ _ _ _ ha1,
          ih _ hb _ _ _ _ hb1]
        ring
      · rw [computeTiles_horizontal [] n x y w h hge hwh, computeTiles_append,
          List.map_append, List.sum_append, ih _ ha _ _ _ _ ha1,
          ih _ hb _ _ _ _ hb1]
        ring

theorem computeTiles_size_bounds (n : Nat) :
    ∀ (x y w h : Int), 0 ≤ w → 0 ≤ h →
      ∀ t ∈ computeTiles [] n x y w h,
        (0 ≤ t.width ∧ t.width ≤ w) ∧ (0 ≤ t.height ∧ t.height ≤ h) := by
  induction n using Nat.strong_induction_on with
  | _ n ih =>
    intro x y w h hw hh t ht
    rcases Nat.lt_or_ge n 2 with hlt | hge
    · interval_cases n
      · simp [computeTiles_zero] at ht
      · simp only [computeTiles_one, List.nil_append, List.mem_singleton] at ht
        subst ht
        exact ⟨⟨hw, le_refl _⟩, hh, le_refl _⟩
    · have ha : n / 2 < n := by omega
      have hb : n - n / 2 < n := by omega
      by_cases hwh : w > h
      · rw [computeTiles_vertical [] n x y w h hge hwh, computeTiles_append,
          List.mem_append] at ht
        rcases ht with ht | ht
        · have := ih _ ha x y (w / 2) h (by omega) hh t ht
          omega
        · have := ih _ hb (x + w / 2 + 1) y (w - w / 2) h (by omega) hh t ht
          omega
      · rw [computeTiles_horizontal [] n x y w h hge hwh, computeTiles_append,
          List.mem_append] at ht
        rcases ht with ht | ht
        · have := ih _ ha x y w (h / 2) hw (by omega) t ht
          omega
        · have := ih _ hb x (y + h / 2 + 1) w (h - h / 2) hw (by omega) t ht
          omega

theorem computeTiles_origin_le (n : Nat) :
    ∀ (x y w h : Int), 0 ≤ w → 0 ≤ h →
      ∀ t ∈ computeTiles [] n x y w h, x ≤ t.left ∧ y ≤ t.top := by
  induction n using Nat.strong_induction_on with
  | _ n ih =>
    intro x y w h hw hh t ht
    rcases Nat.lt_or_ge n 2 with hlt | hge
    · interval_cases n
      · simp [computeTiles_zero] at ht
      · simp only [computeTiles_one, List.nil_append, List.mem_singleton] at ht
        subst ht
        exact ⟨le_refl _, le_refl _⟩
    · have ha : n / 2 < n := by omega
      have hb : n - n / 2 < n := by omega
      by_cases hwh : w > h
      · rw [computeTiles_vertical [] n x y w h hge hwh, computeTiles_append,
          List.mem_append] at ht
        rcases ht with ht | ht
        · exact ih _ ha x y (w / 2) h (by omega) hh t ht
        · have := ih _ hb (x + w / 2 + 1) y (w - w / 2) h (by omega) hh t ht
          omega
      · rw [computeTiles_horizontal [] n x y w h hge hwh, computeTiles_append,
          List.mem_append] at ht
        rcases ht with ht | ht
        · exact ih _ ha x y w (h / 2) hw (by omega) t ht
        · have := ih _ hb x (y + h / 2 + 1) w (h - h / 2) hw (by omega) t ht
          omega

theorem computeTiles_ne_nil (n : Nat) (x y w h : Int) (hn : 1 ≤ n) :
    computeTiles [] n x y w h ≠ [] := by
  intro hnil
  have hlen := computeTiles_length_ctx n [] x y w h
  rw [hnil] at hlen
  simp at hlen
  omega

theorem computeTiles_head (n : Nat) :
    ∀ (x y w h : Int), 1 ≤ n →
      ∃ t, (computeTiles [] n x y w h).head? = some t ∧
        t.left = x ∧ t.top = y := by
  induction n using Nat.strong_induction_on with
  | _ n ih =>
    intro x y w h hpos
    rcases Nat.lt_or_ge n 2 with hlt | hge
    · have h1 : n = 1 := by omega
      subst h1
      exact ⟨⟨x, y, w, h⟩, by simp [computeTiles_one], rfl, rfl⟩
    · have ha : n / 2 < n := by omega
      have ha1 : 1 ≤ n / 2 := by omega
      by_cases hwh : w > h
      · obtain ⟨t, ht, hl, htop⟩ := ih _ ha x y (w / 2) h ha1
        refine ⟨t, ?_, hl, htop⟩
        rw [computeTiles_vertical [] n x y w h hge hwh, computeTiles_append,
          List.head?_append_of_ne_nil _ (computeTiles_ne_nil _ _ _ _ _ ha1), ht]
      · obtain ⟨t, ht, hl, htop⟩ := ih _ ha x y w (h / 2) ha1
        refine ⟨t, ?_, hl, htop⟩
        rw [computeTiles_horizontal [] n x y w h hge hwh, computeTiles_append,
          List.head?_append_of_ne_nil _ (computeTiles_ne_nil _ _ _ _ _ ha1), ht]

theorem computeTiles_last (n : Nat) :
    ∀ (x y w h : Int), 1 ≤ n → 0 ≤ w → 0 ≤ h →
      ∃ t, (computeTiles [] n x y w h).getLast? = some t ∧
        x + w ≤ t.left + t.width ∧ y + h ≤ t.top + t.height ∧
        (2 ≤ n → x + w < t.left + t.width ∨ y + h < t.top + t.height) := by
  induction n using Nat.strong_induction_on with
  | _ n ih =>
    intro x y w h hpos hw hh
    rcases Nat.lt_or_ge n 2 with hlt | hge
    · have h1 : n = 1 := by omega
      subst h1
      exact ⟨⟨x, y, w, h⟩, by simp [computeTiles_one], le_refl _, le_refl _,
        fun h2 => absurd h2 (by decide)⟩
    · have hb : n - n / 2 < n := by omega
      have hb1 : 1 ≤ n - n / 2 := by omega
      by_cases hwh : w > h
      · obtain ⟨t, ht, hr, hbot, _⟩ :=
          ih _ hb (x + w / 2 + 1) y (w - w / 2) h hb1 (by omega) hh
        refine ⟨t, ?_, by omega, hbot, fun _ => Or.inl (by omega)⟩
        rw [computeTiles_vertical [] n x y w h hge hwh, computeTiles_append,
          List.getLast?_append_of_ne_nil _ (computeTiles_ne_nil _ _ _ _ _ hb1), ht]
      · obtain ⟨t, ht, hr, hbot, _⟩ :=
          ih _ hb x (y + h / 2 + 1) w (h - h / 2) hb1 hw (by omega)
        refine ⟨t, ?_, hr, by omega, fun _ => Or.inr (by omega)⟩
        rw [computeTiles_horizontal [] n x y w h hge hwh, computeTiles_append,
          List.getLast?_append_of_ne_nil _ (computeTiles_ne_nil _ _ _ _ _ hb1), ht]

/-- C18: for every count ≥ 1 and every zone with integer coordinates of any
sign, the areas `width * height` of the returned tiles add up to
`zone.width * zone.height`: the 1-unit gaps are not deducted from the tiled
area. -/
theorem computeTiles_area_sum (count : Nat) (left top width height : Int)
    (hc : 1 ≤ count) :
    ((computeTiles [] count left top width height).map
      (fun t => t.width * t.height)).sum = width * height :=
  computeTiles_area_aux count left top width height hc

/-- C18, instance: 3 windows on the zone `{0, 0, 1000, 500}`. -/
theorem computeTiles_area_sum_witness :
    1 ≤ 3 ∧
    ((computeTiles [] 3 0 0 1000 500).map
      (fun t => t.width * t.height)).sum = 1000 * 500 :=
  ⟨by decide, computeTiles_area_sum 3 0 0 1000 500 (by decide)⟩

/-- C19: for every count and every zone with non-negative width and height,
every returned tile has `0 ≤ width ≤ zone.width` and
`0 ≤ height ≤ zone.height`; zero-sized tiles do occur: 2 windows on the zone
`{0, 0, 1, 1}` give a first tile of height 0. -/
theorem computeTiles_tile_size_bounds (count : Nat)
    (left top width height : Int) (hw : 0 ≤ width) (hh : 0 ≤ height) :
    (∀ t ∈ computeTiles [] count left top width height,
      (0 ≤ t.width ∧ t.width ≤ width) ∧ (0 ≤ t.height ∧ t.height ≤ height)) ∧
    (computeTiles [] 2 0 0 1 1).head? = some ⟨0, 0, 1, 0⟩ := by
  refine ⟨computeTiles_size_bounds count left top width height hw hh, ?_⟩
  rw [computeTiles_two_horizontal 0 0 1 1 (by decide)]
  rfl

/-- C19, instance: 2 windows on the zone `{0, 0, 1, 1}`. -/
theorem computeTiles_tile_size_bounds_witness :
    (0 : Int) ≤ 1 ∧ (0 : Int) ≤ 1 ∧
    ((∀ t ∈ computeTiles [] 2 0 0 1 1,
      (0 ≤ t.width ∧ t.width ≤ 1) ∧ (0 ≤ t.height ∧ t.height ≤ 1)) ∧
    (computeTiles [] 2 0 0 1 1).head? = some ⟨0, 0, 1, 0⟩) :=
  ⟨by decide, by decide,
    computeTiles_tile_size_bounds 2 0 0 1 1 (by decide) (by decide)⟩

/-- C20: for every count ≥ 1 and every zone with non-negative width and
height, the first returned tile starts at the zone's `left` and `top`, every
returned tile has `left ≥ zone.left` and `top ≥ zone.top`, and the last
returned tile reaches at least the zone's far edges
(`left + width ≥ zone.left + zone.width` and
`top + height ≥ zone.top + zone.height`), strictly beyond one of them when
count ≥ 2. -/
theorem computeTiles_first_last (count : Nat) (left top width height : Int)
    (hc : 1 ≤ count) (hw : 0 ≤ width) (hh : 0 ≤ height) :
    ∃ first last : Tile,
      (computeTiles [] count left top width height).head? = some first ∧
      (computeTiles [] count left top width height).getLast? = some last ∧
      first.left = left ∧ first.top = top ∧
      (∀ t ∈ computeTiles [] count left top width height,
        t.left ≥ left ∧ t.top ≥ top) ∧
      last.left + last.width ≥ left + width ∧
      last.top + last.height ≥ top + height ∧
      (2 ≤ count →
        last.left + last.width > left + width ∨
          last.top + last.height > top + height) := by
  obtain ⟨first, hfirst, hl, ht⟩ := computeTiles_head count left top width height hc
  obtain ⟨last, hlast, hr, hb, hstrict⟩ :=
    computeTiles_last count left top width height hc hw hh
  exact ⟨first, last, hfirst, hlast, hl, ht,
    computeTiles_origin_le count left top width height hw hh, hr, hb, hstrict⟩

/-- C20, instance: 2 windows on the zone `{0, 0, 1000, 500}`. -/
theorem computeTiles_first_last_witness :
    1 ≤ 2 ∧ (0 : Int) ≤ 1000 ∧ (0 : Int) ≤ 500 ∧
    ∃ first last : Tile,
      (computeTiles [] 2 0 0 1000 500).head? = some first ∧
      (computeTiles [] 2 0 0 1000 500).getLast? = some last ∧
      first.left = 0 ∧ first.top = 0 ∧
      (∀ t ∈ computeTiles [] 2 0 0 1000 500, t.left ≥ 0 ∧ t.top ≥ 0) ∧
      last.left + last.width ≥ 0 + 1000 ∧
      last.top + last.height ≥ 0 + 500 ∧
      (2 ≤ 2 →
        last.left + last.width > 0 + 1000 ∨ last.top + last.height > 0 + 500) :=
  ⟨by decide, by decide, by decide,
    computeTiles_first_last 2 0 0 1000 500 (by decide) (by decide) (by decide)⟩

end WindowTiler
